import Mathlib

/-!
Verification of the opcrawler pipeline (crawler.py, data_processor.py,
sql_generator.py) against its specification.  Strings are modelled as lists
of characters; Python's text helpers (strip, whitespace split, quote
doubling), the shared timestamp-parsing logic, the fetch/checkpoint state of
the crawler, the processor's URL deduplication and the SQL emitter's value
escaping are embedded as executable Lean definitions, translated from the
source files.
-/

namespace OpCrawler

abbrev Str := List Char

/-- The whitespace characters recognised by Python's str.split / str.strip
(ASCII subset). -/
def pyIsSpace (c : Char) : Bool :=
  c = ' ' || c = '\t' || c = '\n' || c = '\r' || c = '\x0b' || c = '\x0c'

/-- Prepend a character to the first token of a token list (opening a new
token when the list is empty). -/
def consTok (c : Char) : List Str → List Str
  | [] => [[c]]
  | t :: ts => (c :: t) :: ts

/-- Whitespace splitting, Python's str.split().  The flag records whether the
scanner currently stands inside a token whose earlier characters have already
been emitted. -/
def wordsF : Bool → Str → List Str
  | false, [] => []
  | true, [] => [[]]
  | false, c :: cs => if pyIsSpace c then wordsF false cs else consTok c (wordsF true cs)
  | true, c :: cs => if pyIsSpace c then [] :: wordsF false cs else consTok c (wordsF true cs)

/-- Python str.split() with no separator: whitespace runs separate tokens,
leading and trailing whitespace is ignored. -/
def pySplit (l : Str) : List Str := wordsF false l

/-- Python ' '.join(tokens). -/
def joinSpace : List Str → Str
  | [] => []
  | [t] => t
  | t :: t2 :: ts => t ++ ' ' :: joinSpace (t2 :: ts)

/-- Remove trailing whitespace. -/
def dropTrailing (l : Str) : Str := ((l.reverse).dropWhile pyIsSpace).reverse

/-- Python str.strip(): remove leading and trailing whitespace. -/
def pyStrip (l : Str) : Str := dropTrailing (l.dropWhile pyIsSpace)

/-- Python text.replace(single-quote, two single-quotes). -/
def escQuotes : Str → Str
  | [] => []
  | c :: cs => if c = '\'' then '\'' :: '\'' :: escQuotes cs else c :: escQuotes cs

/-- Scanner for doubled quotes; the flag records a pending unmatched quote. -/
def nlq : Bool → Str → Bool
  | false, [] => true
  | true, [] => false
  | false, c :: cs => if c = '\'' then nlq true cs else nlq false cs
  | true, c :: cs => if c = '\'' then nlq false cs else false

/-- Whether every single quote of the string is part of a doubled pair, i.e.
inside a single-quoted SQL literal no quote is left unescaped. -/
def noLoneQuote (l : Str) : Bool := nlq false l

/-- Python len(text.split()) as used by count_words in both stages. -/
def pyCountTokens (l : Str) : Nat := (pySplit l).length

-- Auxiliary token combinator used in the proofs below.

/-- Prepend a (space-free) token prefix onto the current token of a true-scan
token list. -/
def prependTok (t : Str) : List Str → List Str
  | [] => [t]
  | h :: r => (t ++ h) :: r

namespace DataProcessor

/-- StockNewsProcessor.clean_text (data_processor.py, lines 67-70): the empty
or all-whitespace string maps to the empty string, otherwise whitespace is
trimmed and internal whitespace runs collapse to single spaces. -/
def clean_text (l : Str) : Str :=
  if l = [] ∨ pyStrip l = [] then [] else joinSpace (pySplit (pyStrip l))

end DataProcessor

namespace SqlGenerator

/-- SQLGenerator.clean_text (sql_generator.py, lines 39-44): the empty or
all-whitespace string maps to None; otherwise whitespace is collapsed as in
the processor and every single quote is then doubled. -/
def clean_text (l : Str) : Option Str :=
  if l = [] ∨ pyStrip l = [] then none
  else some (escQuotes (joinSpace (pySplit (pyStrip l))))

end SqlGenerator

-- Timestamp model.  Both stages' normalize_datetime functions share the same
-- parse logic: if the string contains a capital T, datetime.fromisoformat is
-- applied after replacing Z with an explicit UTC offset, otherwise
-- datetime.strptime with format Y-m-d H:M:S; the stages differ only in what
-- they return on failure.

def isDigitCh (c : Char) : Bool := '0' ≤ c ∧ c ≤ '9'

def digitVal (c : Char) : Nat := c.toNat - 48

/-- Parse exactly n leading digits. -/
def parseNDigitsAux (acc : Nat) : Nat → Str → Option (Nat × Str)
  | 0, l => some (acc, l)
  | _ + 1, [] => none
  | n + 1, c :: cs =>
    if isDigitCh c then parseNDigitsAux (acc * 10 + digitVal c) n cs else none

def parseNDigits (n : Nat) (l : Str) : Option (Nat × Str) := parseNDigitsAux 0 n l

def expectChar (c : Char) : Str → Option Str
  | [] => none
  | x :: xs => if x = c then some xs else none

/-- A two-digit-preferred numeric field of strptime: the CPython regexes for
m, d, H, M, S first try a two-digit match subject to a range, then one digit
subject to a range. -/
def parse2or1 (valid2 valid1 : Nat → Bool) : Str → Option (Nat × Str)
  | [] => none
  | [c1] => if isDigitCh c1 && valid1 (digitVal c1) then some (digitVal c1, []) else none
  | c1 :: c2 :: rest =>
    if isDigitCh c1 && isDigitCh c2 && valid2 (digitVal c1 * 10 + digitVal c2) then
      some (digitVal c1 * 10 + digitVal c2, rest)
    else if isDigitCh c1 && valid1 (digitVal c1) then some (digitVal c1, c2 :: rest)
    else none

structure PyDateTime where
  year : Nat
  month : Nat
  day : Nat
  hour : Nat
  minute : Nat
  second : Nat
  micro : Nat := 0
  tzMinutes : Option Int := none
deriving DecidableEq

def isLeapYear (y : Nat) : Bool := (y % 4 = 0 && y % 100 ≠ 0) || y % 400 = 0

def daysInMonth (y m : Nat) : Nat :=
  if m = 2 then (if isLeapYear y then 29 else 28)
  else if m = 4 || m = 6 || m = 9 || m = 11 then 30
  else 31

/-- datetime.strptime(s, Y-m-d H:M:S pattern): the CPython regex fields, the
whole-string match requirement, and the datetime constructor's validation
(year at least 1, day within the month, seconds at most 59). -/
def strptimeYmdHms (l : Str) : Option PyDateTime := do
  let (y, r1) ← parseNDigits 4 l
  let r2 ← expectChar '-' r1
  let (m, r3) ← parse2or1 (fun v => 1 ≤ v && v ≤ 12) (fun v => 1 ≤ v && v ≤ 9) r2
  let r4 ← expectChar '-' r3
  let (d, r5) ← parse2or1 (fun v => 1 ≤ v && v ≤ 31) (fun v => 1 ≤ v && v ≤ 9) r4
  let r6 ← expectChar ' ' r5
  let (h, r7) ← parse2or1 (fun v => v ≤ 23) (fun _ => true) r6
  let r8 ← expectChar ':' r7
  let (mi, r9) ← parse2or1 (fun v => v ≤ 59) (fun _ => true) r8
  let r10 ← expectChar ':' r9
  let (s, r11) ← parse2or1 (fun v => v ≤ 61) (fun _ => true) r10
  if r11 = [] && 1 ≤ y && d ≤ daysInMonth y m && s ≤ 59 then
    some { year := y, month := m, day := d, hour := h, minute := mi, second := s }
  else none

/-- An optional fraction of exactly 3 or 6 digits after a dot. -/
def parseIsoFrac (l : Str) : Option (Nat × Str) :=
  match l with
  | '.' :: r =>
    match parseNDigits 6 r with
    | some (v, rest) => some (v, rest)
    | none =>
      match parseNDigits 3 r with
      | some (v, rest) => some (v * 1000, rest)
      | none => none
  | _ => none

/-- The optional timezone suffix sign HH:MM with optional seconds and
fraction, as accepted by datetime.fromisoformat before Python 3.11. -/
def parseIsoTz (l : Str) : Option (Option Int) :=
  match l with
  | [] => some none
  | c :: r =>
    if c = '+' || c = '-' then
      match parseNDigits 2 r with
      | none => none
      | some (th, r1) =>
        match expectChar ':' r1 with
        | none => none
        | some r2 =>
          match parseNDigits 2 r2 with
          | none => none
          | some (tm, r3) =>
            let tail : Option Str :=
              match r3 with
              | [] => some []
              | _ =>
                match expectChar ':' r3 with
                | none => none
                | some r4 =>
                  match parseNDigits 2 r4 with
                  | none => none
                  | some (ts, r5) =>
                    if ts ≤ 59 then
                      match r5 with
                      | [] => some []
                      | _ =>
                        match parseIsoFrac r5 with
                        | some (_, []) => some []
                        | _ => none
                    else none
            match tail with
            | none => none
            | some _ =>
              if tm ≤ 59 && th * 60 + tm < 24 * 60 then
                some (some ((if c = '-' then -1 else 1) * (th * 60 + tm : Int)))
              else none
    else none

/-- datetime.fromisoformat as in Python before 3.11: a YYYY-MM-DD date,
optionally a single separator character and a HH[:MM[:SS[.fff or .ffffff]]]
time, optionally a timezone offset; every field two digits and validated by
the datetime constructor. -/
def fromIsoFormat (l : Str) : Option PyDateTime := do
  let (y, r1) ← parseNDigits 4 l
  let r2 ← expectChar '-' r1
  let (m, r3) ← parseNDigits 2 r2
  let r4 ← expectChar '-' r3
  let (d, r5) ← parseNDigits 2 r4
  let dateOk := 1 ≤ y && 1 ≤ m && m ≤ 12 && 1 ≤ d && d ≤ daysInMonth y m
  match r5 with
  | [] =>
    if dateOk then some { year := y, month := m, day := d, hour := 0, minute := 0, second := 0 }
    else none
  | _ :: r6 => do
    let (h, t1) ← parseNDigits 2 r6
    let (mi, s, mic, t4) ←
      match t1 with
      | ':' :: t2 => do
        let (mi, t3) ← parseNDigits 2 t2
        match t3 with
        | ':' :: t4 => do
          let (s, t5) ← parseNDigits 2 t4
          match parseIsoFrac t5 with
          | some (mic, t6) => some (mi, s, mic, t6)
          | none => some (mi, s, 0, t5)
        | _ => some (mi, 0, 0, t3)
      | _ => some (0, 0, 0, t1)
    let tz ← parseIsoTz t4
    if dateOk && h ≤ 23 && mi ≤ 59 && s ≤ 59 then
      some { year := y, month := m, day := d, hour := h, minute := mi, second := s,
             micro := mic, tzMinutes := tz }
    else none

/-- dt_string.replace of Z by a +00:00 offset, applied before fromisoformat. -/
def replaceZ : Str → Str
  | [] => []
  | c :: cs =>
    if c = 'Z' then '+' :: '0' :: '0' :: ':' :: '0' :: '0' :: replaceZ cs
    else c :: replaceZ cs

/-- The try-block shared verbatim by both normalize_datetime functions and by
extract_date_only: fromisoformat after Z-replacement when the string contains
a T, strptime otherwise; none models the raised exception. -/
def pyParseDatetime (l : Str) : Option PyDateTime :=
  if 'T' ∈ l then fromIsoFormat (replaceZ l) else strptimeYmdHms l

/-- Decimal digits of a natural number, most significant first. -/
def natToStr (n : Nat) : Str := Nat.toDigits 10 n

/-- Left-pad with zeros to the given width. -/
def padZeros (w : Nat) (n : Nat) : Str :=
  let d := natToStr n
  List.replicate (w - d.length) '0' ++ d

/-- dt.strftime with the Y-m-d H:M:S format. -/
def strftimeYmdHms (dt : PyDateTime) : Str :=
  padZeros 4 dt.year ++ '-' :: padZeros 2 dt.month ++ '-' :: padZeros 2 dt.day
    ++ ' ' :: padZeros 2 dt.hour ++ ':' :: padZeros 2 dt.minute
    ++ ':' :: padZeros 2 dt.second

/-- dt.strftime with the Y-m-d format. -/
def strftimeYmd (dt : PyDateTime) : Str :=
  padZeros 4 dt.year ++ '-' :: padZeros 2 dt.month ++ '-' :: padZeros 2 dt.day

namespace DataProcessor

/-- StockNewsProcessor.normalize_datetime (data_processor.py, lines 72-82):
empty input yields the empty string, a parse failure yields the input
unchanged, success yields the reformatted timestamp. -/
def normalize_datetime (l : Str) : Str :=
  if l = [] then []
  else
    match pyParseDatetime l with
    | some dt => strftimeYmdHms dt
    | none => l

/-- StockNewsProcessor.extract_date_only (data_processor.py, lines 93-103):
empty input or a parse failure yields the empty string, success the date
part. -/
def extract_date_only (l : Str) : Str :=
  if l = [] then []
  else
    match pyParseDatetime l with
    | some dt => strftimeYmd dt
    | none => []

end DataProcessor

namespace SqlGenerator

/-- SQLGenerator.normalize_datetime (sql_generator.py, lines 46-56): empty
input and parse failures yield None, success the reformatted timestamp. -/
def normalize_datetime (l : Str) : Option Str :=
  if l = [] then none
  else
    match pyParseDatetime l with
    | some dt => some (strftimeYmdHms dt)
    | none => none

end SqlGenerator

-- urlparse model (urllib.parse), used by extract_domain in both downstream
-- stages: the scheme prefix is removed when a valid one precedes the first
-- colon, and netloc is what follows a double slash up to a slash, question
-- mark or hash; otherwise netloc is empty.

def isSchemeChar (c : Char) : Bool := c.isAlpha || isDigitCh c || c = '+' || c = '-' || c = '.'

def schemeSplit (l : Str) : Str :=
  let pre := l.takeWhile (fun c => c ≠ ':')
  if pre.length < l.length && pre ≠ [] &&
      (match pre with | c :: _ => c.isAlpha | [] => false) && pre.all isSchemeChar then
    l.drop (pre.length + 1)
  else l

def urlNetloc (l : Str) : Str :=
  match schemeSplit l with
  | '/' :: '/' :: r => r.takeWhile (fun c => c ≠ '/' && c ≠ '?' && c ≠ '#')
  | _ => []

namespace Crawler

/-- One article object of the news API response body (section 6 of the spec);
each key may be absent. -/
structure ApiArticle where
  title : Option Str := none
  description : Option Str := none
  url : Option Str := none
  sourceName : Option Str := none
  publishedAt : Option Str := none
  author : Option Str := none
  urlToImage : Option Str := none
deriving DecidableEq

/-- The record appended for a new article (crawler.py, lines 74-84); now is
datetime.now().isoformat() and dateRange the from_to window string. -/
structure ArticleRecord where
  title : Str
  description : Str
  url : Str
  source : Str
  published_at : Str
  author : Str
  image_url : Str
  scraped_at : Str
  date_range : Str
deriving DecidableEq

def mkArticleRecord (a : ApiArticle) (u : Str) (now dateRange : Str) : ArticleRecord :=
  { title := a.title.getD []
    description := a.description.getD []
    url := u
    source := a.sourceName.getD []
    published_at := a.publishedAt.getD []
    author := a.author.getD []
    image_url := a.urlToImage.getD []
    scraped_at := now
    date_range := dateRange }

/-- The JSON body of a response; a missing key models a KeyError site. -/
structure ApiBody where
  status : Option Str
  totalResults : Option Nat
  articles : Option (List ApiArticle)
deriving DecidableEq

/-- The outcome of requests.get plus response.raise_for_status and
response.json(): a transport error, an unparsable body, or a parsed body. -/
inductive FetchResult where
  | transportError
  | badJson
  | response (body : ApiBody)
deriving DecidableEq

/-- The filtering loop of get_articles_batch (crawler.py, lines 71-86): skip
an article whose url is empty or already collected, otherwise build a record,
add the url to the in-memory set, and count it. -/
def processLoop (now dateRange : Str) : List Str → List ApiArticle → List ArticleRecord × List Str
  | collected, [] => ([], collected)
  | collected, a :: rest =>
    let u := a.url.getD []
    if u ≠ [] ∧ u ∉ collected then
      let p := processLoop now dateRange (u :: collected) rest
      (mkArticleRecord a u now dateRange :: p.1, p.2)
    else processLoop now dateRange collected rest

/-- StockNewsCrawler.get_articles_batch (crawler.py, lines 38-97) given the
HTTP outcome: every transport or processing exception is caught and yields
(empty list, 0); a body whose status is not ok reaches the final return with
total_results unbound, which raises and is caught the same way; a body
lacking the status or articles key raises a KeyError, also caught.  The
result pairs the Python return value with the state of collected_urls. -/
def get_articles_batch (resp : FetchResult) (now dateRange : Str) (collected : List Str) :
    (List ArticleRecord × Nat) × List Str :=
  match resp with
  | .transportError => (([], 0), collected)
  | .badJson => (([], 0), collected)
  | .response b =>
    match b.status with
    | none => (([], 0), collected)
    | some st =>
      if st = ("ok").data then
        match b.articles with
        | none => (([], 0), collected)
        | some arts =>
          let p := processLoop now dateRange collected arts
          ((p.1, b.totalResults.getD 0), p.2)
      else (([], 0), collected)

/-- The checkpoint document written by save_checkpoint (crawler.py, lines
28-36). -/
structure CheckpointDoc where
  collected_urls : Option (List Str)
  last_run : Str
  total_articles : Nat
deriving DecidableEq

/-- StockNewsCrawler.save_checkpoint: the document holds an enumeration of
the in-memory URL set, the current time, and the size of the set. -/
def save_checkpoint (collected : List Str) (now : Str) : CheckpointDoc :=
  { collected_urls := some collected, last_run := now, total_articles := collected.length }

/-- save_checkpoint as a state transition: it writes the document and leaves
collected_urls untouched. -/
def save_checkpoint_step (collected : List Str) (now : Str) : CheckpointDoc × List Str :=
  (save_checkpoint collected now, collected)

/-- What load_checkpoint finds on disk. -/
inductive CheckpointFile where
  | missing
  | corrupt
  | stored (doc : CheckpointDoc)

/-- StockNewsCrawler.load_checkpoint (crawler.py, lines 17-26): a missing
file leaves the current set, a malformed one resets it to empty, a stored
document yields the set of its collected_urls list (missing key: empty). -/
def load_checkpoint (current : Finset Str) : CheckpointFile → Finset Str
  | .missing => current
  | .corrupt => ∅
  | .stored doc => (doc.collected_urls.getD []).toFinset

/-- The crawler's in-run state: the URL set, the accumulated new articles of
the run, and the remaining oracle of HTTP outcomes, one per API call. -/
structure RunState where
  collected : List Str
  allArticles : List ArticleRecord
  oracle : List FetchResult

/-- One fetch attempt inside run: consume the next HTTP outcome, filter new
articles, and extend all_articles when the batch is non-empty (saving the
batch file and checkpoint does not change this state). -/
def callAndCollect (now dateRange : Str) (st : RunState) : RunState × List ArticleRecord :=
  let resp := st.oracle.headD FetchResult.transportError
  let r := get_articles_batch resp now dateRange st.collected
  let arts := r.1.1
  if arts ≠ [] then
    ({ collected := r.2, allArticles := st.allArticles ++ arts, oracle := st.oracle.tail }, arts)
  else
    ({ collected := r.2, allArticles := st.allArticles, oracle := st.oracle.tail }, arts)

/-- The alternate query strings tried by run (crawler.py, lines 132-140). -/
def search_strategies : List Str :=
  [("stock market news").data, ("financial news").data, ("investment news").data,
   ("market analysis").data, ("economic news").data, ("trading news").data,
   ("business news").data]

/-- The strategy loop of run (crawler.py, lines 144-160): one fetch per
strategy, stopping early once the article cap is reached. -/
def strategyLoop (maxTotal : Nat) (now dateRange : Str) : List Str → RunState → RunState
  | [], st => st
  | _ :: qs, st =>
    if maxTotal ≤ st.allArticles.length then st
    else strategyLoop maxTotal now dateRange qs (callAndCollect now dateRange st).1

/-- The date-offset loop of run (crawler.py, lines 166-187): while the cap is
not reached and the offset is within days_back, fetch at the offset; the
offset advances every iteration.  The fuel argument bounds the iteration
count; maxDaysBack + 1 is enough since the offset starts at 1. -/
def offsetLoop (maxTotal maxDaysBack : Nat) (now : Str) (dateRange : Nat → Str) :
    Nat → Nat → RunState → RunState
  | 0, _, st => st
  | fuel + 1, offset, st =>
    if st.allArticles.length < maxTotal ∧ offset ≤ maxDaysBack then
      offsetLoop maxTotal maxDaysBack now dateRange fuel (offset + 1)
        (callAndCollect now (dateRange offset) st).1
    else st

/-- StockNewsCrawler.run (crawler.py, lines 110-193): the initial fetch, the
strategy sweep, then the date-offset sweep. -/
def run (maxTotal maxDaysBack : Nat) (now : Str) (dateRange : Nat → Str)
    (st : RunState) : RunState :=
  let st1 := (callAndCollect now (dateRange 0) st).1
  let st2 := strategyLoop maxTotal now (dateRange 0) search_strategies st1
  offsetLoop maxTotal maxDaysBack now dateRange (maxDaysBack + 1) 1 st2

end Crawler

/-- A raw article as stored in a batch file and re-read by the downstream
stages; every key is looked up with a default, so each field is optional. -/
structure RawArticle where
  title : Option Str := none
  description : Option Str := none
  url : Option Str := none
  source : Option Str := none
  published_at : Option Str := none
  author : Option Str := none
  image_url : Option Str := none
  scraped_at : Option Str := none
  date_range : Option Str := none
deriving DecidableEq

/-- What parsing one batch file yields: a JSON error, a list, or a single
object (load_json_files appends a non-list document as one article). -/
inductive BatchFile where
  | corrupt
  | arr (articles : List RawArticle)
  | single (a : RawArticle)

/-- load_json_files, identical in data_processor.py (lines 20-38) and
sql_generator.py (lines 19-37): concatenate every parsable batch file,
skipping corrupt ones. -/
def load_json_files : List BatchFile → List RawArticle
  | [] => []
  | .corrupt :: fs => load_json_files fs
  | .arr xs :: fs => xs ++ load_json_files fs
  | .single a :: fs => a :: load_json_files fs

namespace DataProcessor

/-- StockNewsProcessor.extract_domain (data_processor.py, lines 84-91). -/
def extract_domain (url : Str) : Str :=
  if url = [] then [] else urlNetloc url

/-- StockNewsProcessor.count_words (data_processor.py, lines 105-108). -/
def count_words (l : Str) : Nat :=
  if l = [] then 0 else pyCountTokens l

/-- A normalized article record (data_processor.py, lines 46-62). -/
structure NormRecord where
  title : Str
  description : Str
  url : Str
  source : Str
  published_at : Str
  author : Str
  image_url : Str
  scraped_at : Str
  date_range : Str
  has_image : Bool
  has_author : Bool
  domain : Str
  published_date : Str
  scraped_date : Str
  word_count : Nat
deriving DecidableEq

/-- The per-article transform of StockNewsProcessor.normalize_data. -/
def normalize_article (a : RawArticle) : NormRecord :=
  { title := clean_text (a.title.getD [])
    description := clean_text (a.description.getD [])
    url := a.url.getD []
    source := a.source.getD []
    published_at := normalize_datetime (a.published_at.getD [])
    author := clean_text (a.author.getD [])
    image_url := a.image_url.getD []
    scraped_at := normalize_datetime (a.scraped_at.getD [])
    date_range := a.date_range.getD []
    has_image := a.image_url.getD [] ≠ []
    has_author := a.author.getD [] ≠ []
    domain := extract_domain (a.url.getD [])
    published_date := extract_date_only (a.published_at.getD [])
    scraped_date := extract_date_only (a.scraped_at.getD [])
    word_count := count_words (a.description.getD []) }

def normalize_data (articles : List RawArticle) : List NormRecord :=
  articles.map normalize_article

/-- A date value, as produced by the date-column coercion. -/
structure PyDate where
  year : Nat
  month : Nat
  day : Nat
deriving DecidableEq

/-- Models pandas.to_datetime with errors coerce on the timestamp columns:
the formats produced upstream (the strptime shape or an ISO string) parse,
anything else coerces to a null value. -/
def pdToDatetime (s : Str) : Option PyDateTime :=
  if s = [] then none
  else
    match strptimeYmdHms s with
    | some dt => some dt
    | none => fromIsoFormat (replaceZ s)

/-- Models the date-column coercion (pandas.to_datetime followed by dt.date)
on the Y-m-d strings produced by extract_date_only. -/
def pdToDate (s : Str) : Option PyDate :=
  match pdToDatetime s with
  | some dt => some { year := dt.year, month := dt.month, day := dt.day }
  | none =>
    match fromIsoFormat s with
    | some dt => some { year := dt.year, month := dt.month, day := dt.day }
    | none => none

/-- A row of the dataframe after the column coercions of create_dataframe
(data_processor.py, lines 113-121). -/
structure Row where
  title : Str
  description : Str
  url : Str
  source : Str
  published_at : Option PyDateTime
  author : Str
  image_url : Str
  scraped_at : Option PyDateTime
  date_range : Str
  has_image : Bool
  has_author : Bool
  domain : Str
  published_date : Option PyDate
  scraped_date : Option PyDate
  word_count : Nat
deriving DecidableEq

def coerceRecord (r : NormRecord) : Row :=
  { title := r.title
    description := r.description
    url := r.url
    source := r.source
    published_at := pdToDatetime r.published_at
    author := r.author
    image_url := r.image_url
    scraped_at := pdToDatetime r.scraped_at
    date_range := r.date_range
    has_image := r.has_image
    has_author := r.has_author
    domain := r.domain
    published_date := pdToDate r.published_date
    scraped_date := pdToDate r.scraped_date
    word_count := r.word_count }

/-- drop_duplicates on the url column with keep first: a row is dropped when
its url was already seen. -/
def dropDupByUrl (seen : List Str) : List Row → List Row
  | [] => []
  | r :: rest =>
    if r.url ∈ seen then dropDupByUrl seen rest
    else r :: dropDupByUrl (r.url :: seen) rest

/-- StockNewsProcessor.create_dataframe (data_processor.py, lines 110-130):
coerce the timestamp and date columns, then deduplicate by url keeping the
first occurrence. -/
def create_dataframe (records : List NormRecord) : List Row :=
  dropDupByUrl [] (records.map coerceRecord)

/-- The write effects of StockNewsProcessor.process_all (data_processor.py,
lines 165-192): with no articles loaded it only reports and returns; with
articles it builds the table and writes the CSV export and the stats file. -/
structure ProcessResult where
  reportedNoArticles : Bool
  table : List Row
  writes : List Str
deriving DecidableEq

def process_all (files : List BatchFile) (ts : Str) : ProcessResult :=
  let articles := load_json_files files
  if articles = [] then { reportedNoArticles := true, table := [], writes := [] }
  else
    let df := create_dataframe (normalize_data articles)
    { reportedNoArticles := false
      table := df
      writes := [("stock_news_processed_").data ++ ts ++ (".csv").data,
                 ("summary_stats_").data ++ ts ++ (".json").data] }

end DataProcessor

namespace SqlGenerator

/-- SQLGenerator.extract_domain (sql_generator.py, lines 58-64). -/
def extract_domain (url : Str) : Option Str :=
  if url = [] then none else some (urlNetloc url)

/-- SQLGenerator.count_words (sql_generator.py, lines 66-69). -/
def count_words (l : Str) : Nat :=
  if l = [] then 0 else pyCountTokens l

/-- A Python value reaching escape_sql_value: None, a string, a boolean or an
integer (the word count). -/
inductive SqlValue where
  | nullv
  | str (s : Str)
  | boolean (b : Bool)
  | int (n : Nat)
deriving DecidableEq

/-- SQLGenerator.escape_sql_value (sql_generator.py, lines 71-78): None maps
to the NULL keyword, a string is wrapped in single quotes as-is (no escaping
here), a boolean to TRUE or FALSE, anything else to its str() form. -/
def escape_sql_value : SqlValue → Str
  | .nullv => ("NULL").data
  | .str s => '\'' :: (s ++ ['\''])
  | .boolean b => if b then ("TRUE").data else ("FALSE").data
  | .int n => natToStr n

/-- The SQL-ready record built by SQLGenerator.transform_article
(sql_generator.py, lines 80-94). -/
structure Transformed where
  url : Option Str
  title : Option Str
  description : Option Str
  source : Option Str
  author : Option Str
  published_at : Option Str
  scraped_at : Option Str
  image_url : Option Str
  domain : Option Str
  word_count : Nat
  has_image : Bool
  has_author : Bool
deriving DecidableEq

def transform_article (a : RawArticle) : Transformed :=
  { url := clean_text (a.url.getD [])
    title := clean_text (a.title.getD [])
    description := clean_text (a.description.getD [])
    source := clean_text (a.source.getD [])
    author := clean_text (a.author.getD [])
    published_at := normalize_datetime (a.published_at.getD [])
    scraped_at := normalize_datetime (a.scraped_at.getD [])
    image_url := clean_text (a.image_url.getD [])
    domain := extract_domain (a.url.getD [])
    word_count := count_words (a.description.getD [])
    has_image := a.image_url.getD [] ≠ []
    has_author := a.author.getD [] ≠ [] }

/-- Lift an optional string field to the value escape_sql_value receives. -/
def toSqlStr : Option Str → SqlValue
  | none => .nullv
  | some s => .str s

/-- The rendering applied to each text field of a transformed record. -/
def renderOptText (v : Option Str) : Str := escape_sql_value (toSqlStr v)

/-- The write effects of SQLGenerator.generate_all_sql (sql_generator.py,
lines 184-230): with no articles loaded it only reports and returns; with
articles it writes the four timestamped SQL files. -/
structure SqlResult where
  reportedNoArticles : Bool
  writes : List Str
deriving DecidableEq

def generate_all_sql (files : List BatchFile) (ts : Str) : SqlResult :=
  let articles := load_json_files files
  if articles = [] then { reportedNoArticles := true, writes := [] }
  else
    { reportedNoArticles := false
      writes := [("create_table_").data ++ ts ++ (".sql").data,
                 ("insert_articles_").data ++ ts ++ (".sql").data,
                 ("upsert_articles_").data ++ ts ++ (".sql").data,
                 ("complete_sql_").data ++ ts ++ (".sql").data] }

end SqlGenerator

-- Concrete inputs used by the counterexamples and witnesses.

def url1ex : Str := ("https://a.com/1").data
def url2ex : Str := ("https://a.com/2").data

def a1ex : Crawler.ApiArticle := { url := some url1ex }
def a2ex : Crawler.ApiArticle := { url := some url2ex }

def bodyEx : Crawler.ApiBody :=
  { status := some (("ok").data), totalResults := some 2, articles := some [a1ex, a2ex] }

def nr1ex : DataProcessor.NormRecord :=
  { title := ("T1").data, description := [], url := ("https://x.com/a").data, source := []
    published_at := [], author := [], image_url := [], scraped_at := [], date_range := []
    has_image := false, has_author := false, domain := [], published_date := []
    scraped_date := [], word_count := 0 }

def nr2ex : DataProcessor.NormRecord :=
  { title := ("T2").data, description := [], url := ("https://x.com/a").data, source := []
    published_at := [], author := [], image_url := [], scraped_at := [], date_range := []
    has_image := false, has_author := false, domain := [], published_date := []
    scraped_date := [], word_count := 0 }

def art4ex : RawArticle :=
  { url := some (("https://a'b.com/x").data), title := some (("O'Brien's report").data) }

-- Basic facts about the text helpers.

theorem consTok_ne_nil (c : Char) (ts : List Str) : consTok c ts ≠ [] := by
  cases ts <;> simp [consTok]

theorem mem_consTok {c : Char} {ts : List Str} {t : Str} (h : t ∈ consTok c ts) :
    (ts = [] ∧ t = [c]) ∨ ∃ t0 ts', ts = t0 :: ts' ∧ (t = c :: t0 ∨ t ∈ ts') := by
  cases ts with
  | nil => simp [consTok] at h; exact Or.inl ⟨rfl, h⟩
  | cons t0 ts' =>
    simp [consTok] at h
    exact Or.inr ⟨t0, ts', rfl, h⟩

theorem wordsF_spacefree :
    ∀ (l : Str) (b : Bool) (t : Str), t ∈ wordsF b l → ∀ c ∈ t, pyIsSpace c = false := by
  intro l
  induction l with
  | nil =>
    intro b t ht c hc
    cases b <;> simp [wordsF] at ht
    subst ht; simp at hc
  | cons a as ih =>
    intro b t ht c hc
    by_cases ha : pyIsSpace a
    · cases b <;> simp [wordsF, ha] at ht
      · exact ih false t ht c hc
      · rcases ht with h | h
        · subst h; simp at hc
        · exact ih false t h c hc
    · have hmain : t ∈ consTok a (wordsF true as) := by
        cases b <;> simpa [wordsF, ha] using ht
      rcases mem_consTok hmain with ⟨hnil, ht⟩ | ⟨t0, ts', hw, hcase⟩
      · subst ht
        simp at hc
        subst hc; simpa using ha
      · rcases hcase with h | h
        · subst h
          simp at hc
          rcases hc with hc | hc
          · subst hc; simpa using ha
          · exact ih true t0 (by rw [hw]; simp) c hc
        · exact ih true t (by rw [hw]; simp [h]) c hc

/-- Joint structure of the token scans: the false-scan produces only nonempty
tokens, and the true-scan produces a nonempty token list whose tail holds only
nonempty tokens. -/
theorem wordsF_struct :
    ∀ (l : Str),
      (∀ t ∈ wordsF false l, t ≠ []) ∧
      (∃ t0 ts, wordsF true l = t0 :: ts ∧ ∀ t ∈ ts, t ≠ []) := by
  intro l
  induction l with
  | nil =>
    refine ⟨by simp [wordsF], ⟨[], [], by simp [wordsF], by simp⟩⟩
  | cons a as ih =>
    obtain ⟨ihf, t0, ts, hw, hts⟩ := ih
    by_cases ha : pyIsSpace a
    · refine ⟨?_, ⟨[], wordsF false as, by simp [wordsF, ha], ihf⟩⟩
      intro t ht
      simp [wordsF, ha] at ht
      exact ihf t ht
    · refine ⟨?_, ⟨a :: t0, ts, by simp [wordsF, ha, hw, consTok], hts⟩⟩
      intro t ht
      simp [wordsF, ha, hw, consTok] at ht
      rcases ht with h | h
      · subst h; simp
      · exact hts t h

theorem wordsF_true_append (t : Str) (hsf : ∀ c ∈ t, pyIsSpace c = false) (l : Str) :
    wordsF true (t ++ l) = prependTok t (wordsF true l) := by
  induction t with
  | nil =>
    obtain ⟨-, t0, ts, hw, -⟩ := wordsF_struct l
    simp [hw, prependTok]
  | cons c t' ih =>
    have hc : pyIsSpace c = false := hsf c (by simp)
    have hsf' : ∀ c ∈ t', pyIsSpace c = false := fun x hx => hsf x (by simp [hx])
    obtain ⟨-, t0, ts, hw, -⟩ := wordsF_struct l
    have happ := ih hsf'
    simp only [List.cons_append, wordsF, List.append_eq]
    rw [if_neg (by simp [hc]), happ, hw]
    simp [prependTok, consTok]

theorem wordsF_roundtrip :
    ∀ (ts : List Str),
      (∀ t ∈ ts, t ≠ [] ∧ ∀ c ∈ t, pyIsSpace c = false) →
      wordsF false (joinSpace ts) = ts := by
  intro ts
  induction ts with
  | nil => intro _; simp [joinSpace, wordsF]
  | cons t rest ih =>
    intro h
    obtain ⟨htne, htsf⟩ := h t (by simp)
    obtain ⟨c, t', rfl⟩ : ∃ c t', t = c :: t' := by
      cases t with
      | nil => exact absurd rfl htne
      | cons c t' => exact ⟨c, t', rfl⟩
    have hc : pyIsSpace c = false := htsf c (by simp)
    have ht' : ∀ x ∈ t', pyIsSpace x = false := fun x hx => htsf x (by simp [hx])
    cases rest with
    | nil =>
      have happ := wordsF_true_append t' ht' []
      rw [List.append_nil] at happ
      simp only [joinSpace, wordsF]
      rw [if_neg (by simp [hc]), happ]
      simp [wordsF, prependTok, consTok]
    | cons t2 rest' =>
      have hrest : wordsF false (joinSpace (t2 :: rest')) = t2 :: rest' :=
        ih (fun x hx => h x (by simp [hx]))
      have happ := wordsF_true_append t' ht' (' ' :: joinSpace (t2 :: rest'))
      simp only [joinSpace, List.cons_append, wordsF, List.append_eq]
      rw [if_neg (by simp [hc]), happ]
      have hsp : pyIsSpace ' ' = true := by decide
      simp only [wordsF, hsp, if_pos rfl, hrest]
      simp [prependTok, consTok]

theorem wordsF_all_space :
    ∀ (s : Str), (∀ c ∈ s, pyIsSpace c = true) →
      wordsF false s = [] ∧ wordsF true s = [[]] := by
  intro s
  induction s with
  | nil => intro _; simp [wordsF]
  | cons c cs ih =>
    intro h
    have hc : pyIsSpace c = true := h c (by simp)
    have := ih (fun x hx => h x (by simp [hx]))
    simp [wordsF, hc, this.1]

theorem wordsF_append_space (l s : Str) (hs : ∀ c ∈ s, pyIsSpace c = true) :
    ∀ b, wordsF b (l ++ s) = wordsF b l := by
  induction l with
  | nil =>
    intro b
    obtain ⟨h1, h2⟩ := wordsF_all_space s hs
    cases b <;> simp [wordsF, h1, h2]
  | cons c cs ih =>
    intro b
    by_cases hc : pyIsSpace c
    · cases b <;> simp [wordsF, hc, ih]
    · cases b <;> simp [wordsF, hc, ih]

theorem wordsF_dropWhile (l : Str) :
    wordsF false (l.dropWhile pyIsSpace) = wordsF false l := by
  induction l with
  | nil => simp
  | cons c cs ih =>
    by_cases hc : pyIsSpace c
    · simp [List.dropWhile, hc, wordsF, ih]
    · simp [List.dropWhile, hc]

theorem wordsF_dropTrailing (l : Str) :
    wordsF false (dropTrailing l) = wordsF false l := by
  have hdecomp : l = dropTrailing l ++ (l.reverse.takeWhile pyIsSpace).reverse := by
    have h := List.takeWhile_append_dropWhile (p := pyIsSpace) (l := l.reverse)
    have h2 := congrArg List.reverse h
    simp only [List.reverse_append, List.reverse_reverse] at h2
    rw [dropTrailing]
    exact h2.symm
  have hs : ∀ c ∈ (l.reverse.takeWhile pyIsSpace).reverse, pyIsSpace c = true := by
    intro c hc
    simp only [List.mem_reverse] at hc
    exact List.mem_takeWhile_imp hc
  conv_rhs => rw [hdecomp]
  rw [wordsF_append_space _ _ hs]

theorem wordsF_strip (l : Str) : wordsF false (pyStrip l) = wordsF false l := by
  unfold pyStrip
  rw [wordsF_dropTrailing, wordsF_dropWhile]

theorem pyStrip_eq_nil_iff (l : Str) :
    pyStrip l = [] ↔ ∀ c ∈ l, pyIsSpace c = true := by
  unfold pyStrip dropTrailing
  constructor
  · intro h c hc
    have h1 : (l.dropWhile pyIsSpace).reverse.dropWhile pyIsSpace = [] := by
      simpa using congrArg List.reverse h
    have h2 : ∀ x ∈ (l.dropWhile pyIsSpace).reverse, pyIsSpace x = true := by
      simpa [List.dropWhile_eq_nil_iff] using h1
    have h3 : ∀ x ∈ l.dropWhile pyIsSpace, pyIsSpace x = true := by
      intro x hx; exact h2 x (by simpa using hx)
    have hl := List.takeWhile_append_dropWhile (p := pyIsSpace) (l := l)
    rw [← hl] at hc
    rcases List.mem_append.mp hc with h4 | h4
    · exact List.mem_takeWhile_imp h4
    · exact h3 c h4
  · intro h
    have h3 : ∀ x ∈ l.dropWhile pyIsSpace, pyIsSpace x = true := by
      intro x hx
      exact h x (List.dropWhile_sublist (p := pyIsSpace) (l := l) |>.mem hx)
    have : (l.dropWhile pyIsSpace).reverse.dropWhile pyIsSpace = [] := by
      rw [List.dropWhile_eq_nil_iff]
      intro x hx
      exact h3 x (by simpa using hx)
    simp [this]

theorem noLoneQuote_escQuotes (l : Str) : noLoneQuote (escQuotes l) = true := by
  unfold noLoneQuote
  induction l with
  | nil => simp [escQuotes, nlq]
  | cons c cs ih =>
    by_cases hc : c = '\''
    · simp [escQuotes, hc, nlq, ih]
    · simp [escQuotes, hc, nlq, ih]

theorem escQuotes_eq_nil_iff (l : Str) : escQuotes l = [] ↔ l = [] := by
  cases l with
  | nil => simp [escQuotes]
  | cons c cs =>
    constructor
    · intro h
      by_cases hc : c = '\'' <;> simp [escQuotes, hc] at h
    · intro h; simp at h

theorem wordsF_false_ne_nil (l : Str) : ∀ t ∈ wordsF false l, t ≠ [] :=
  (wordsF_struct l).1

theorem dropWhile_head_false {α : Type} (p : α → Bool) :
    ∀ (l : List α) (d : α) (s : List α), l.dropWhile p = d :: s → p d = false := by
  intro l
  induction l with
  | nil => intro d s h; simp [List.dropWhile] at h
  | cons c cs ih =>
    intro d s h
    by_cases hc : p c
    · rw [List.dropWhile_cons_of_pos hc] at h
      exact ih d s h
    · rw [List.dropWhile_cons_of_neg hc] at h
      obtain ⟨h1, -⟩ := List.cons.inj h
      rw [← h1]
      simpa using hc

/-- A nonempty strip result starts with a non-whitespace character. -/
theorem pyStrip_head_not_space (l : Str) (c : Char) (r : Str)
    (hx : pyStrip l = c :: r) : pyIsSpace c = false := by
  rcases hy : l.dropWhile pyIsSpace with _ | ⟨d, s⟩
  · rw [pyStrip, hy] at hx; simp [dropTrailing] at hx
  · have hd : pyIsSpace d = false := dropWhile_head_false pyIsSpace l d s hy
    have hdecomp := List.takeWhile_append_dropWhile (p := pyIsSpace)
      (l := (d :: s).reverse)
    have h2 := congrArg List.reverse hdecomp
    simp only [List.reverse_append, List.reverse_reverse] at h2
    have hpre : dropTrailing (d :: s) ++ ((d :: s).reverse.takeWhile pyIsSpace).reverse
        = d :: s := h2
    rw [pyStrip, hy] at hx
    rw [hx] at hpre
    have hcd : c = d := by simpa using congrArg List.head? hpre
    rw [hcd]
    exact hd

theorem pySplit_strip_tokens (l : Str) (h : pyStrip l ≠ []) :
    ∃ t0 ts, pySplit (pyStrip l) = t0 :: ts ∧
      (∀ t ∈ t0 :: ts, t ≠ [] ∧ ∀ c ∈ t, pyIsSpace c = false) := by
  have hne : ∃ c r, pyStrip l = c :: r ∧ pyIsSpace c = false := by
    rcases hx : pyStrip l with _ | ⟨c, r⟩
    · exact absurd hx h
    · exact ⟨c, r, rfl, pyStrip_head_not_space l c r hx⟩
  rcases hz : pySplit (pyStrip l) with _ | ⟨t0, ts⟩
  · exfalso
    obtain ⟨c, r, hx, hc⟩ := hne
    rw [hx] at hz
    simp only [pySplit, wordsF] at hz
    rw [if_neg (by simp [hc])] at hz
    exact consTok_ne_nil c _ hz
  · refine ⟨t0, ts, rfl, ?_⟩
    intro t ht
    rw [← hz] at ht
    exact ⟨wordsF_false_ne_nil _ t ht, wordsF_spacefree _ false t ht⟩

theorem joinSpace_tokens_ne_nil (t0 : Str) (ts : List Str) (h : t0 ≠ []) :
    joinSpace (t0 :: ts) ≠ [] := by
  cases ts with
  | nil => simpa [joinSpace] using h
  | cons t2 ts' =>
    simp only [joinSpace]
    intro hcontra
    rcases t0 with _ | ⟨c, r⟩
    · exact h rfl
    · simp at hcontra

theorem joinSpace_has_head_char (t0 : Str) (ts : List Str) (c : Char) (t' : Str)
    (h : t0 = c :: t') : c ∈ joinSpace (t0 :: ts) := by
  subst h
  cases ts with
  | nil => simp [joinSpace]
  | cons t2 ts' => simp [joinSpace]

/-- The processor's clean_text is idempotent (claim C10's core property). -/
theorem dp_clean_text_idem (l : Str) :
    DataProcessor.clean_text (DataProcessor.clean_text l) = DataProcessor.clean_text l := by
  unfold DataProcessor.clean_text
  by_cases hb : l = [] ∨ pyStrip l = []
  · rw [if_pos hb, if_pos (Or.inl rfl)]
  · rw [if_neg hb]
    push_neg at hb
    obtain ⟨t0, ts, hsplit, htok⟩ := pySplit_strip_tokens l hb.2
    rw [hsplit]
    obtain ⟨c, t', hc⟩ : ∃ c t', t0 = c :: t' := by
      cases t0 with
      | nil => exact absurd rfl (htok [] (by simp)).1
      | cons c t' => exact ⟨c, t', rfl⟩
    have hne : joinSpace (t0 :: ts) ≠ [] := joinSpace_tokens_ne_nil t0 ts (by simp [hc])
    have hmem : c ∈ joinSpace (t0 :: ts) := joinSpace_has_head_char t0 ts c t' hc
    have hcs : pyIsSpace c = false := (htok t0 (by simp)).2 c (by simp [hc])
    have hstrip : pyStrip (joinSpace (t0 :: ts)) ≠ [] := by
      intro hcontra
      have := (pyStrip_eq_nil_iff _).mp hcontra c hmem
      rw [hcs] at this
      exact Bool.false_ne_true this
    rw [if_neg (by push_neg; exact ⟨hne, hstrip⟩)]
    have : pySplit (pyStrip (joinSpace (t0 :: ts))) = t0 :: ts := by
      have h1 : pySplit (pyStrip (joinSpace (t0 :: ts)))
          = pySplit (joinSpace (t0 :: ts)) := wordsF_strip _
      rw [h1]
      exact wordsF_roundtrip (t0 :: ts) htok
    rw [this]

-- Lemmas about the fetch loop and the run driver.

namespace Crawler

theorem processLoop_superset (now dr : Str) :
    ∀ (arts : List ApiArticle) (c : List Str) (u : Str),
      u ∈ c → u ∈ (processLoop now dr c arts).2 := by
  intro arts
  induction arts with
  | nil => intro c u hu; simpa [processLoop] using hu
  | cons a rest ih =>
    intro c u hu
    by_cases hguard : a.url.getD [] ≠ [] ∧ a.url.getD [] ∉ c
    · simp only [processLoop, if_pos hguard]
      exact ih (a.url.getD [] :: c) u (by simp [hu])
    · simp only [processLoop, if_neg hguard]
      exact ih c u hu

theorem processLoop_new (now dr : Str) :
    ∀ (arts : List ApiArticle) (c : List Str) (r : ArticleRecord),
      r ∈ (processLoop now dr c arts).1 → r.url ≠ [] ∧ r.url ∉ c := by
  intro arts
  induction arts with
  | nil => intro c r hr; simp [processLoop] at hr
  | cons a rest ih =>
    intro c r hr
    by_cases hguard : a.url.getD [] ≠ [] ∧ a.url.getD [] ∉ c
    · simp only [processLoop, if_pos hguard] at hr
      rcases List.mem_cons.mp hr with hr | hr
      · subst hr
        exact ⟨hguard.1, hguard.2⟩
      · have := ih (a.url.getD [] :: c) r hr
        exact ⟨this.1, fun hmem => this.2 (by simp [hmem])⟩
    · simp only [processLoop, if_neg hguard] at hr
      exact ih c r hr

theorem processLoop_union (now dr : Str) :
    ∀ (arts : List ApiArticle) (c : List Str),
      ((processLoop now dr c arts).2).toFinset
        = c.toFinset ∪ (((processLoop now dr c arts).1).map (fun r => r.url)).toFinset := by
  intro arts
  induction arts with
  | nil => intro c; simp [processLoop]
  | cons a rest ih =>
    intro c
    by_cases hguard : a.url.getD [] ≠ [] ∧ a.url.getD [] ∉ c
    · simp only [processLoop, if_pos hguard, List.map_cons, List.toFinset_cons]
      rw [ih (a.url.getD [] :: c)]
      ext x
      simp [mkArticleRecord]
    · simp only [processLoop, if_neg hguard]
      exact ih c

theorem processLoop_nodup (now dr : Str) :
    ∀ (arts : List ApiArticle) (c : List Str),
      c.Nodup → ((processLoop now dr c arts).2).Nodup := by
  intro arts
  induction arts with
  | nil => intro c hc; simpa [processLoop] using hc
  | cons a rest ih =>
    intro c hc
    by_cases hguard : a.url.getD [] ≠ [] ∧ a.url.getD [] ∉ c
    · simp only [processLoop, if_pos hguard]
      exact ih (a.url.getD [] :: c) (List.nodup_cons.mpr ⟨hguard.2, hc⟩)
    · simp only [processLoop, if_neg hguard]
      exact ih c hc

theorem get_articles_batch_superset (resp : FetchResult) (now dr : Str) (c : List Str)
    (u : Str) (hu : u ∈ c) : u ∈ (get_articles_batch resp now dr c).2 := by
  cases resp with
  | transportError => simpa [get_articles_batch] using hu
  | badJson => simpa [get_articles_batch] using hu
  | response b =>
    rcases b with ⟨status, tr, arts⟩
    cases status with
    | none => simpa [get_articles_batch] using hu
    | some st =>
      by_cases hst : st = ("ok").data
      · cases arts with
        | none => simpa [get_articles_batch, hst] using hu
        | some l =>
          simp only [get_articles_batch, if_pos hst]
          exact processLoop_superset now dr l c u hu
      · simpa [get_articles_batch, hst] using hu

theorem get_articles_batch_new (resp : FetchResult) (now dr : Str) (c : List Str)
    (r : ArticleRecord) (hr : r ∈ (get_articles_batch resp now dr c).1.1) :
    r.url ≠ [] ∧ r.url ∉ c := by
  cases resp with
  | transportError => simp [get_articles_batch] at hr
  | badJson => simp [get_articles_batch] at hr
  | response b =>
    rcases b with ⟨status, tr, arts⟩
    cases status with
    | none => simp [get_articles_batch] at hr
    | some st =>
      by_cases hst : st = ("ok").data
      · cases arts with
        | none => simp [get_articles_batch, hst] at hr
        | some l =>
          simp only [get_articles_batch, if_pos hst] at hr
          exact processLoop_new now dr l c r hr
      · simp [get_articles_batch, hst] at hr

theorem get_articles_batch_nodup (resp : FetchResult) (now dr : Str) (c : List Str)
    (hc : c.Nodup) : ((get_articles_batch resp now dr c).2).Nodup := by
  cases resp with
  | transportError => simpa [get_articles_batch] using hc
  | badJson => simpa [get_articles_batch] using hc
  | response b =>
    rcases b with ⟨status, tr, arts⟩
    cases status with
    | none => simpa [get_articles_batch] using hc
    | some st =>
      by_cases hst : st = ("ok").data
      · cases arts with
        | none => simpa [get_articles_batch, hst] using hc
        | some l =>
          simp only [get_articles_batch, if_pos hst]
          exact processLoop_nodup now dr l c hc
      · simpa [get_articles_batch, hst] using hc

theorem callAndCollect_superset (now dr : Str) (st : RunState) (u : Str)
    (hu : u ∈ st.collected) : u ∈ ((callAndCollect now dr st).1).collected := by
  unfold callAndCollect
  by_cases h : (get_articles_batch (st.oracle.headD .transportError) now dr st.collected).1.1 ≠ []
  · simp only [if_pos h]
    exact get_articles_batch_superset _ now dr st.collected u hu
  · simp only [if_neg h]
    exact get_articles_batch_superset _ now dr st.collected u hu

theorem callAndCollect_nodup (now dr : Str) (st : RunState)
    (hc : st.collected.Nodup) : ((callAndCollect now dr st).1).collected.Nodup := by
  unfold callAndCollect
  by_cases h : (get_articles_batch (st.oracle.headD .transportError) now dr st.collected).1.1 ≠ []
  · simp only [if_pos h]
    exact get_articles_batch_nodup _ now dr st.collected hc
  · simp only [if_neg h]
    exact get_articles_batch_nodup _ now dr st.collected hc

theorem strategyLoop_superset (maxTotal : Nat) (now dr : Str) :
    ∀ (qs : List Str) (st : RunState) (u : Str),
      u ∈ st.collected → u ∈ (strategyLoop maxTotal now dr qs st).collected := by
  intro qs
  induction qs with
  | nil => intro st u hu; simpa [strategyLoop] using hu
  | cons q qs' ih =>
    intro st u hu
    by_cases hcap : maxTotal ≤ st.allArticles.length
    · simpa [strategyLoop, hcap] using hu
    · simp only [strategyLoop, if_neg hcap]
      exact ih _ u (callAndCollect_superset now dr st u hu)

theorem strategyLoop_nodup (maxTotal : Nat) (now dr : Str) :
    ∀ (qs : List Str) (st : RunState),
      st.collected.Nodup → (strategyLoop maxTotal now dr qs st).collected.Nodup := by
  intro qs
  induction qs with
  | nil => intro st h; simpa [strategyLoop] using h
  | cons q qs' ih =>
    intro st h
    by_cases hcap : maxTotal ≤ st.allArticles.length
    · simpa [strategyLoop, hcap] using h
    · simp only [strategyLoop, if_neg hcap]
      exact ih _ (callAndCollect_nodup now dr st h)

theorem offsetLoop_superset (maxTotal maxDaysBack : Nat) (now : Str) (dr : Nat → Str) :
    ∀ (fuel offset : Nat) (st : RunState) (u : Str),
      u ∈ st.collected → u ∈ (offsetLoop maxTotal maxDaysBack now dr fuel offset st).collected := by
  intro fuel
  induction fuel with
  | zero => intro offset st u hu; simpa [offsetLoop] using hu
  | succ fuel' ih =>
    intro offset st u hu
    by_cases hcond : st.allArticles.length < maxTotal ∧ offset ≤ maxDaysBack
    · simp only [offsetLoop, if_pos hcond]
      exact ih _ _ u (callAndCollect_superset now (dr offset) st u hu)
    · simpa [offsetLoop, hcond] using hu

theorem offsetLoop_nodup (maxTotal maxDaysBack : Nat) (now : Str) (dr : Nat → Str) :
    ∀ (fuel offset : Nat) (st : RunState),
      st.collected.Nodup →
        (offsetLoop maxTotal maxDaysBack now dr fuel offset st).collected.Nodup := by
  intro fuel
  induction fuel with
  | zero => intro offset st h; simpa [offsetLoop] using h
  | succ fuel' ih =>
    intro offset st h
    by_cases hcond : st.allArticles.length < maxTotal ∧ offset ≤ maxDaysBack
    · simp only [offsetLoop, if_pos hcond]
      exact ih _ _ (callAndCollect_nodup now (dr offset) st h)
    · simpa [offsetLoop, hcond] using h

theorem run_superset (maxTotal maxDaysBack : Nat) (now : Str) (dr : Nat → Str)
    (st : RunState) (u : Str) (hu : u ∈ st.collected) :
    u ∈ (run maxTotal maxDaysBack now dr st).collected := by
  unfold run
  exact offsetLoop_superset maxTotal maxDaysBack now dr _ _ _ u
    (strategyLoop_superset maxTotal now (dr 0) search_strategies _ u
      (callAndCollect_superset now (dr 0) st u hu))

theorem run_nodup (maxTotal maxDaysBack : Nat) (now : Str) (dr : Nat → Str)
    (st : RunState) (h : st.collected.Nodup) :
    (run maxTotal maxDaysBack now dr st).collected.Nodup := by
  unfold run
  exact offsetLoop_nodup maxTotal maxDaysBack now dr _ _ _
    (strategyLoop_nodup maxTotal now (dr 0) search_strategies _
      (callAndCollect_nodup now (dr 0) st h))

end Crawler

-- Lemmas about the dataframe deduplication.

namespace DataProcessor

theorem coerceRecord_url (r : NormRecord) : (coerceRecord r).url = r.url := rfl

theorem coerceRecord_title (r : NormRecord) : (coerceRecord r).title = r.title := rfl

theorem dropDupByUrl_invariant :
    ∀ (l : List Row) (seen : List Str),
      (((dropDupByUrl seen l).map (fun r => r.url)).Nodup ∧
        ∀ r ∈ dropDupByUrl seen l, r.url ∉ seen) := by
  intro l
  induction l with
  | nil => intro seen; simp [dropDupByUrl]
  | cons r rest ih =>
    intro seen
    by_cases hseen : r.url ∈ seen
    · simp only [dropDupByUrl, if_pos hseen]
      exact ⟨(ih seen).1, (ih seen).2⟩
    · simp only [dropDupByUrl, if_neg hseen]
      obtain ⟨hnodup, hnotin⟩ := ih (r.url :: seen)
      refine ⟨?_, ?_⟩
      · simp only [List.map_cons, List.nodup_cons]
        refine ⟨?_, hnodup⟩
        intro hmem
        rcases List.mem_map.mp hmem with ⟨r2, hr2, hurl⟩
        exact hnotin r2 hr2 (by simp [hurl])
      · intro r2 hr2
        rcases List.mem_cons.mp hr2 with h | h
        · subst h; exact hseen
        · intro hmem
          exact hnotin r2 h (by simp [hmem])

theorem dropDupByUrl_mem_urls :
    ∀ (l : List Row) (seen : List Str) (x : Str),
      x ∈ (dropDupByUrl seen l).map (fun r => r.url) ↔
        x ∈ l.map (fun r => r.url) ∧ x ∉ seen := by
  intro l
  induction l with
  | nil => intro seen x; simp [dropDupByUrl]
  | cons r rest ih =>
    intro seen x
    by_cases hseen : r.url ∈ seen
    · simp only [dropDupByUrl, if_pos hseen, List.map_cons, List.mem_cons]
      rw [ih seen x]
      constructor
      · intro ⟨h1, h2⟩; exact ⟨Or.inr h1, h2⟩
      · rintro ⟨h1 | h1, h2⟩
        · subst h1; exact absurd hseen h2
        · exact ⟨h1, h2⟩
    · simp only [dropDupByUrl, if_neg hseen, List.map_cons, List.mem_cons]
      rw [ih (r.url :: seen) x]
      constructor
      · rintro (h | ⟨h1, h2⟩)
        · subst h; exact ⟨Or.inl rfl, hseen⟩
        · exact ⟨Or.inr h1, fun hx => h2 (by simp [hx])⟩
      · rintro ⟨h1 | h1, h2⟩
        · exact Or.inl h1
        · by_cases hx : x = r.url
          · exact Or.inl hx
          · exact Or.inr ⟨h1, by simp [hx, h2]⟩

theorem dropDupByUrl_find? :
    ∀ (l : List Row) (seen : List Str) (u : Str), u ∉ seen →
      (dropDupByUrl seen l).find? (fun r => decide (r.url = u))
        = l.find? (fun r => decide (r.url = u)) := by
  intro l
  induction l with
  | nil => intro seen u _; simp [dropDupByUrl]
  | cons r rest ih =>
    intro seen u hu
    by_cases hseen : r.url ∈ seen
    · have hru : ¬ r.url = u := fun h => hu (h ▸ hseen)
      simp only [dropDupByUrl, if_pos hseen]
      rw [List.find?_cons_of_neg _ (by simpa using hru)]
      exact ih seen u hu
    · simp only [dropDupByUrl, if_neg hseen]
      by_cases hru : r.url = u
      · rw [List.find?_cons_of_pos _ (by simpa using hru),
          List.find?_cons_of_pos _ (by simpa using hru)]
      · rw [List.find?_cons_of_neg _ (by simpa using hru),
          List.find?_cons_of_neg _ (by simpa using hru)]
        refine ih (r.url :: seen) u ?_
        intro hmem
        rcases List.mem_cons.mp hmem with h | h
        · exact hru h.symm
        · exact hu h

theorem find?_map_coerce :
    ∀ (l : List NormRecord) (p : Row → Bool),
      (l.map coerceRecord).find? p
        = ((l.find? (fun r => p (coerceRecord r))).map coerceRecord) := by
  intro l p
  induction l with
  | nil => simp
  | cons r rest ih =>
    simp only [List.map_cons, List.find?]
    by_cases h : p (coerceRecord r)
    · simp [h]
    · simp [h, ih]

end DataProcessor

theorem sql_clean_text_some (x s : Str) (h : SqlGenerator.clean_text x = some s) :
    noLoneQuote s = true ∧ s ≠ [] := by
  unfold SqlGenerator.clean_text at h
  by_cases hb : x = [] ∨ pyStrip x = []
  · rw [if_pos hb] at h; exact absurd h (by simp)
  · rw [if_neg hb] at h
    have hs : s = escQuotes (joinSpace (pySplit (pyStrip x))) := (Option.some.inj h).symm
    push_neg at hb
    obtain ⟨t0, ts, hsplit, htok⟩ := pySplit_strip_tokens x hb.2
    constructor
    · rw [hs]; exact noLoneQuote_escQuotes _
    · rw [hs]
      intro hcontra
      rw [escQuotes_eq_nil_iff, hsplit] at hcontra
      exact joinSpace_tokens_ne_nil t0 ts (htok t0 (by simp)).1 hcontra

theorem digitChar_ne_quote (m : Nat) (h : m < 10) : Nat.digitChar m ≠ '\'' := by
  have hball : ∀ k, k < 10 → Nat.digitChar k ≠ '\'' := by decide
  exact hball m h

theorem toDigitsCore_quote_free :
    ∀ (fuel n : Nat) (ds : List Char), (∀ c ∈ ds, c ≠ '\'') →
      ∀ c ∈ Nat.toDigitsCore 10 fuel n ds, c ≠ '\'' := by
  intro fuel
  induction fuel with
  | zero =>
    intro n ds hds c hc
    simp only [Nat.toDigitsCore] at hc
    exact hds c hc
  | succ fuel ih =>
    intro n ds hds c hc
    simp only [Nat.toDigitsCore] at hc
    by_cases hz : n / 10 = 0
    · rw [if_pos hz] at hc
      rcases List.mem_cons.mp hc with h | h
      · rw [h]; exact digitChar_ne_quote (n % 10) (Nat.mod_lt n (by norm_num))
      · exact hds c h
    · rw [if_neg hz] at hc
      refine ih (n / 10) (Nat.digitChar (n % 10) :: ds) ?_ c hc
      intro x hx
      rcases List.mem_cons.mp hx with h | h
      · rw [h]; exact digitChar_ne_quote (n % 10) (Nat.mod_lt n (by norm_num))
      · exact hds x h

theorem natToStr_quote_free (n : Nat) : ∀ c ∈ natToStr n, c ≠ '\'' := by
  intro c hc
  exact toDigitsCore_quote_free (n + 1) n [] (by simp) c hc

theorem padZeros_quote_free (w n : Nat) : ∀ c ∈ padZeros w n, c ≠ '\'' := by
  intro c hc
  simp only [padZeros, List.mem_append] at hc
  rcases hc with h | h
  · rw [List.eq_of_mem_replicate h]; decide
  · exact natToStr_quote_free n c h

theorem strftimeYmdHms_quote_free (dt : PyDateTime) :
    ∀ c ∈ strftimeYmdHms dt, c ≠ '\'' := by
  unfold strftimeYmdHms
  simp only [List.forall_mem_append, List.forall_mem_cons]
  exact ⟨⟨⟨⟨⟨padZeros_quote_free 4 dt.year, by decide, padZeros_quote_free 2 dt.month⟩,
    by decide, padZeros_quote_free 2 dt.day⟩, by decide, padZeros_quote_free 2 dt.hour⟩,
    by decide, padZeros_quote_free 2 dt.minute⟩, by decide, padZeros_quote_free 2 dt.second⟩

theorem strftimeYmdHms_ne_nil (dt : PyDateTime) : strftimeYmdHms dt ≠ [] := by
  unfold strftimeYmdHms
  intro h
  rcases List.append_eq_nil.mp h with ⟨-, h2⟩
  exact List.cons_ne_nil _ _ h2

theorem noLoneQuote_of_quote_free :
    ∀ (l : Str), (∀ c ∈ l, c ≠ '\'') → noLoneQuote l = true := by
  intro l
  unfold noLoneQuote
  induction l with
  | nil => intro _; rfl
  | cons c cs ih =>
    intro h
    have hc : ¬ c = '\'' := h c (by simp)
    simp only [nlq, if_neg hc]
    exact ih (fun x hx => h x (by simp [hx]))

/-- A timestamp the SQL emitter's normalize_datetime produces is a non-empty
strftime rendering built from digits and separators, so it carries no single
quote at all, in particular no unescaped one. -/
theorem sql_normalize_datetime_some (l s : Str)
    (h : SqlGenerator.normalize_datetime l = some s) :
    noLoneQuote s = true ∧ s ≠ [] := by
  unfold SqlGenerator.normalize_datetime at h
  by_cases hl : l = []
  · rw [if_pos hl] at h; simp at h
  · rw [if_neg hl] at h
    cases hp : pyParseDatetime l with
    | none => rw [hp] at h; simp at h
    | some dt =>
      rw [hp] at h
      have hs : s = strftimeYmdHms dt := (Option.some.inj h).symm
      rw [hs]
      exact ⟨noLoneQuote_of_quote_free _ (strftimeYmdHms_quote_free dt),
        strftimeYmdHms_ne_nil dt⟩

-- Claim theorems.

/-- C1 counterexample: on the non-empty unparsable timestamp string bad, the
Normalizer's normalize_datetime returns the original string, but the SQL
emitter's normalize_datetime returns None rather than the original string, so
the two stages do not agree. -/
theorem c1_counterexample :
    DataProcessor.normalize_datetime (("bad").data) = ("bad").data ∧
    SqlGenerator.normalize_datetime (("bad").data) = none ∧
    SqlGenerator.normalize_datetime (("bad").data) ≠ some (("bad").data) := by
  refine ⟨by decide, by decide, by decide⟩

/-- C1 amended: for every non-empty timestamp string matching neither
accepted form, the Normalizer's normalize_datetime returns the original
string unchanged while the SQL emitter's returns None; the two stages share
one parse and agree (up to the Option wrapper) exactly on parseable inputs,
and on empty input the Normalizer returns the empty string and the SQL
emitter None. -/
theorem c1_normalize_datetime_amended (l : Str) :
    (l ≠ [] → pyParseDatetime l = none →
      DataProcessor.normalize_datetime l = l ∧ SqlGenerator.normalize_datetime l = none) ∧
    (∀ dt, pyParseDatetime l = some dt →
      DataProcessor.normalize_datetime l = strftimeYmdHms dt ∧
      SqlGenerator.normalize_datetime l = some (strftimeYmdHms dt)) ∧
    (l = [] → DataProcessor.normalize_datetime l = [] ∧
      SqlGenerator.normalize_datetime l = none) := by
  refine ⟨?_, ?_, ?_⟩
  · intro hne hparse
    simp [DataProcessor.normalize_datetime, SqlGenerator.normalize_datetime, hne, hparse]
  · intro dt hparse
    by_cases hne : l = []
    · subst hne
      simp [pyParseDatetime, strptimeYmdHms, parseNDigits, parseNDigitsAux] at hparse
    · simp [DataProcessor.normalize_datetime, SqlGenerator.normalize_datetime, hne, hparse]
  · intro he
    subst he
    simp [DataProcessor.normalize_datetime, SqlGenerator.normalize_datetime]

/-- C1 witness: the amended theorem applied at the concrete unparsable
string bad. -/
theorem c1_normalize_datetime_amended_witness :
    DataProcessor.normalize_datetime (("bad").data) = ("bad").data ∧
    SqlGenerator.normalize_datetime (("bad").data) = none :=
  (c1_normalize_datetime_amended (("bad").data)).1 (by decide) (by decide)

/-- C5: saving a checkpoint from any enumeration of the collected URL set and
loading it back yields exactly that set, whatever order the serializer chose
for the list. -/
theorem c5_checkpoint_roundtrip (s l : List Str) (prev : Finset Str) (t : Str)
    (h : l.toFinset = s.toFinset) :
    Crawler.load_checkpoint prev (.stored (Crawler.save_checkpoint l t)) = s.toFinset := by
  simp [Crawler.load_checkpoint, Crawler.save_checkpoint, h]

/-- C5 witness: a two-URL set serialized in the opposite order round-trips to
the same set. -/
theorem c5_checkpoint_roundtrip_witness :
    Crawler.load_checkpoint ∅
      (.stored (Crawler.save_checkpoint [("https://a.com/2").data, ("https://a.com/1").data] []))
      = ([("https://a.com/1").data, ("https://a.com/2").data] : List Str).toFinset :=
  c5_checkpoint_roundtrip [("https://a.com/1").data, ("https://a.com/2").data]
    [("https://a.com/2").data, ("https://a.com/1").data] ∅ [] (by decide)

/-- C6: a transport error, an unparsable body, a body missing the status key,
a body whose status is not ok, and an ok body missing the articles key all
make get_articles_batch return the pair (empty list, 0) without propagating
an exception, and leave collected_urls unchanged. -/
theorem c6_failure_returns_empty (now dr : Str) (c : List Str) :
    Crawler.get_articles_batch .transportError now dr c = (([], 0), c) ∧
    Crawler.get_articles_batch .badJson now dr c = (([], 0), c) ∧
    (∀ tr arts, Crawler.get_articles_batch (.response ⟨none, tr, arts⟩) now dr c
      = (([], 0), c)) ∧
    (∀ st tr arts, st ≠ ("ok").data →
      Crawler.get_articles_batch (.response ⟨some st, tr, arts⟩) now dr c = (([], 0), c)) ∧
    (∀ tr, Crawler.get_articles_batch (.response ⟨some (("ok").data), tr, none⟩) now dr c
      = (([], 0), c)) := by
  refine ⟨rfl, rfl, fun tr arts => rfl, ?_, fun tr => rfl⟩
  intro st tr arts hst
  simp [Crawler.get_articles_batch, hst]

/-- C6 witness: the not-ok status case at a concrete response. -/
theorem c6_failure_returns_empty_witness :
    Crawler.get_articles_batch (.response ⟨some (("error").data), some 5, some []⟩) [] [] []
      = (([], 0), []) :=
  (c6_failure_returns_empty [] [] []).2.2.2.1 (("error").data) (some 5) (some []) (by decide)

/-- C7: with zero batch files (an empty load), process_all and
generate_all_sql each report that no articles were found and write no output
file at all. -/
theorem c7_empty_input_no_outputs (ts : Str) :
    DataProcessor.process_all [] ts
      = { reportedNoArticles := true, table := [], writes := [] } ∧
    SqlGenerator.generate_all_sql [] ts
      = { reportedNoArticles := true, writes := [] } :=
  ⟨rfl, rfl⟩

/-- C9: the checkpoint document written by save_checkpoint has
total_articles equal to the number of distinct URLs in collected_urls and its
collected_urls field enumerates exactly that set; the crawler maintains the
duplicate-freeness this counting relies on across every fetch and across a
whole run. -/
theorem c9_checkpoint_fields (c : List Str) (t : Str) (h : c.Nodup) :
    (Crawler.save_checkpoint c t).total_articles = c.toFinset.card ∧
    ((Crawler.save_checkpoint c t).collected_urls.getD []).toFinset = c.toFinset ∧
    (∀ resp now dr (c2 : List Str), c2.Nodup →
      ((Crawler.get_articles_batch resp now dr c2).2).Nodup) ∧
    (∀ mt mdb now (dr : Nat → Str) (st : Crawler.RunState), st.collected.Nodup →
      (Crawler.run mt mdb now dr st).collected.Nodup) := by
  refine ⟨?_, rfl, ?_, ?_⟩
  · rw [List.toFinset_card_of_nodup h]
    rfl
  · intro resp now dr c2 h2
    exact Crawler.get_articles_batch_nodup resp now dr c2 h2
  · intro mt mdb now dr st hst
    exact Crawler.run_nodup mt mdb now dr st hst

/-- C9 witness: the field equalities at a concrete one-URL state. -/
theorem c9_checkpoint_fields_witness :
    (Crawler.save_checkpoint [("https://a.com/1").data] []).total_articles
      = ([("https://a.com/1").data] : List Str).toFinset.card :=
  (c9_checkpoint_fields [("https://a.com/1").data] [] (by decide)).1

/-- C10: the Normalizer's clean_text is idempotent, and the SQL emitter's
clean_text is not: its quote doubling grows a quote-bearing string on every
application. -/
theorem c10_clean_text_idempotent :
    (∀ l, DataProcessor.clean_text (DataProcessor.clean_text l)
      = DataProcessor.clean_text l) ∧
    SqlGenerator.clean_text (("a'b").data) = some (("a''b").data) ∧
    SqlGenerator.clean_text (("a''b").data) ≠ some (("a''b").data) :=
  ⟨dp_clean_text_idem, by decide, by decide⟩

/-- C2: get_articles_batch never returns an article whose URL is empty or
already collected; with one of two response URLs already in collected_urls,
exactly the other article is returned. -/
theorem c2_fetch_skips_collected :
    (∀ (resp : Crawler.FetchResult) (now dr : Str) (c : List Str)
        (r : Crawler.ArticleRecord),
      r ∈ (Crawler.get_articles_batch resp now dr c).1.1 → r.url ≠ [] ∧ r.url ∉ c) ∧
    ((Crawler.get_articles_batch (.response bodyEx) [] [] [url1ex]).1.1).map
        (fun r => r.url) = [url2ex] ∧
    ((Crawler.get_articles_batch (.response bodyEx) [] [] [url1ex]).1.1).length = 1 := by
  refine ⟨?_, by decide, by decide⟩
  intro resp now dr c r hr
  exact Crawler.get_articles_batch_new resp now dr c r hr

/-- C2 witness: the general part applied to the returned article of the
concrete two-article response. -/
theorem c2_fetch_skips_collected_witness :
    (Crawler.mkArticleRecord a2ex url2ex [] []).url ≠ [] ∧
    (Crawler.mkArticleRecord a2ex url2ex [] []).url ∉ [url1ex] :=
  c2_fetch_skips_collected.1 (.response bodyEx) [] [] [url1ex]
    (Crawler.mkArticleRecord a2ex url2ex [] []) (by decide)

/-- C3: the deduplicated table holds exactly one row per distinct url, that
row is the coercion of the first-encountered record with that url, and for
two same-url records with titles T1 then T2 only the T1 row survives. -/
theorem c3_dedup_first_wins :
    (∀ (nd : List DataProcessor.NormRecord),
      ((DataProcessor.create_dataframe nd).map (fun r => r.url)).Nodup ∧
      (∀ x, x ∈ (DataProcessor.create_dataframe nd).map (fun r => r.url) ↔
        x ∈ nd.map (fun r => r.url)) ∧
      (∀ u, (DataProcessor.create_dataframe nd).find? (fun r => decide (r.url = u))
        = (nd.find? (fun r => decide (r.url = u))).map DataProcessor.coerceRecord)) ∧
    (DataProcessor.create_dataframe [nr1ex, nr2ex]).map (fun r => r.title)
      = [("T1").data] ∧
    (DataProcessor.create_dataframe [nr1ex, nr2ex]).length = 1 := by
  refine ⟨?_, by decide, by decide⟩
  intro nd
  refine ⟨(DataProcessor.dropDupByUrl_invariant (nd.map DataProcessor.coerceRecord) []).1,
    ?_, ?_⟩
  · intro x
    rw [DataProcessor.create_dataframe,
      DataProcessor.dropDupByUrl_mem_urls (nd.map DataProcessor.coerceRecord) [] x]
    simp [List.map_map, Function.comp, DataProcessor.coerceRecord_url]
  · intro u
    rw [DataProcessor.create_dataframe,
      DataProcessor.dropDupByUrl_find? (nd.map DataProcessor.coerceRecord) [] u (by simp),
      DataProcessor.find?_map_coerce nd (fun r => decide (r.url = u))]
    rfl

/-- C4 counterexample: the domain field of a transformed article is rendered
by escape_sql_value without any quote doubling, so a netloc carrying a single
quote yields a quoted literal with an unescaped quote inside it, against the
claimed escaping rule. -/
theorem c4_counterexample :
    (SqlGenerator.transform_article art4ex).domain = some (("a'b.com").data) ∧
    SqlGenerator.renderOptText (SqlGenerator.transform_article art4ex).domain
      = ("'a'b.com'").data ∧
    noLoneQuote (("a'b.com").data) = false := by
  refine ⟨by decide, by decide, by decide⟩

/-- C4 amended: escape_sql_value renders None as NULL, a boolean as TRUE or
FALSE and an integer as its decimal form; for the text fields that pass
through clean_text and for the timestamps that pass through
normalize_datetime a None renders as NULL and a produced string is non-empty
with no unescaped quote inside its quoted rendering (clean_text doubles every
internal quote, normalize_datetime emits only digits and separators), and the
O'Brien title renders exactly as claimed.  The rules do not extend to the
domain field, which bypasses clean_text (see the counterexample). -/
theorem c4_escaping_amended (x y : Str) (b : Bool) (n : Nat) :
    SqlGenerator.escape_sql_value .nullv = ("NULL").data ∧
    (SqlGenerator.clean_text x = none →
      SqlGenerator.renderOptText (SqlGenerator.clean_text x) = ("NULL").data) ∧
    (∀ s, SqlGenerator.clean_text x = some s →
      SqlGenerator.renderOptText (SqlGenerator.clean_text x) = '\'' :: (s ++ ['\'']) ∧
      noLoneQuote s = true ∧ s ≠ []) ∧
    (SqlGenerator.normalize_datetime y = none →
      SqlGenerator.renderOptText (SqlGenerator.normalize_datetime y) = ("NULL").data) ∧
    (∀ s, SqlGenerator.normalize_datetime y = some s →
      SqlGenerator.renderOptText (SqlGenerator.normalize_datetime y)
          = '\'' :: (s ++ ['\'']) ∧
      noLoneQuote s = true ∧ s ≠ []) ∧
    SqlGenerator.escape_sql_value (.boolean b)
      = (if b then ("TRUE").data else ("FALSE").data) ∧
    SqlGenerator.escape_sql_value (.int n) = natToStr n ∧
    SqlGenerator.renderOptText (SqlGenerator.clean_text (("O'Brien's report").data))
      = ("'O''Brien''s report'").data := by
  refine ⟨rfl, ?_, ?_, ?_, ?_, rfl, rfl, by decide⟩
  · intro h
    rw [h]
    rfl
  · intro s h
    obtain ⟨hq, hne⟩ := sql_clean_text_some x s h
    rw [h]
    exact ⟨rfl, hq, hne⟩
  · intro h
    rw [h]
    rfl
  · intro s h
    obtain ⟨hq, hne⟩ := sql_normalize_datetime_some y s h
    rw [h]
    exact ⟨rfl, hq, hne⟩

/-- C4 witness: the amended theorem's string cases applied at the O'Brien
title and at a concrete parseable timestamp. -/
theorem c4_escaping_amended_witness :
    (SqlGenerator.renderOptText (SqlGenerator.clean_text (("O'Brien's report").data))
        = '\'' :: ((("O''Brien''s report").data) ++ ['\'']) ∧
      noLoneQuote (("O''Brien''s report").data) = true ∧
      ("O''Brien''s report").data ≠ []) ∧
    (SqlGenerator.renderOptText
        (SqlGenerator.normalize_datetime (("2024-01-02 03:04:05").data))
        = '\'' :: ((("2024-01-02 03:04:05").data) ++ ['\'']) ∧
      noLoneQuote (("2024-01-02 03:04:05").data) = true ∧
      ("2024-01-02 03:04:05").data ≠ []) :=
  ⟨(c4_escaping_amended (("O'Brien's report").data) (("2024-01-02 03:04:05").data) true 0).2.2.1
      (("O''Brien''s report").data) (by decide),
   (c4_escaping_amended (("O'Brien's report").data) (("2024-01-02 03:04:05").data) true 0).2.2.2.2.1
      (("2024-01-02 03:04:05").data) (by decide)⟩

/-- C8: collected_urls only grows: it is preserved by every fetch, a
successful fetch leaves it equal to the prior set united with the returned
URLs, save_checkpoint does not modify it, and a whole run only extends it. -/
theorem c8_collected_monotone :
    (∀ (resp : Crawler.FetchResult) (now dr : Str) (c : List Str) (u : Str),
      u ∈ c → u ∈ (Crawler.get_articles_batch resp now dr c).2) ∧
    (∀ (now dr : Str) (c : List Str) (arts : List Crawler.ApiArticle) (tr : Option Nat),
      ((Crawler.get_articles_batch (.response ⟨some (("ok").data), tr, some arts⟩)
          now dr c).2).toFinset
        = c.toFinset ∪
          (((Crawler.get_articles_batch (.response ⟨some (("ok").data), tr, some arts⟩)
            now dr c).1.1).map (fun r => r.url)).toFinset) ∧
    (∀ (c : List Str) (t : Str), (Crawler.save_checkpoint_step c t).2 = c) ∧
    (∀ (mt mdb : Nat) (now : Str) (dr : Nat → Str) (st : Crawler.RunState) (u : Str),
      u ∈ st.collected → u ∈ (Crawler.run mt mdb now dr st).collected) := by
  refine ⟨?_, ?_, fun c t => rfl, ?_⟩
  · intro resp now dr c u hu
    exact Crawler.get_articles_batch_superset resp now dr c u hu
  · intro now dr c arts tr
    simp only [Crawler.get_articles_batch, if_pos rfl]
    exact Crawler.processLoop_union now dr arts c
  · intro mt mdb now dr st u hu
    exact Crawler.run_superset mt mdb now dr st u hu

/-- C8 witness: a collected URL survives a failing fetch and a whole run. -/
theorem c8_collected_monotone_witness :
    url1ex ∈ (Crawler.get_articles_batch .transportError [] [] [url1ex]).2 ∧
    url1ex ∈ (Crawler.run 0 0 [] (fun _ => []) ⟨[url1ex], [], []⟩).collected :=
  ⟨c8_collected_monotone.1 .transportError [] [] [url1ex] url1ex (by decide),
   c8_collected_monotone.2.2.2 0 0 [] (fun _ => []) ⟨[url1ex], [], []⟩ url1ex (by decide)⟩

end OpCrawler
